import Mathlib

/-!
Verification of the value model (`ast.go`) of the jsongoparser repository.

The Go source under scrutiny is `ast.go`: the five JSON value node kinds
(Object, Array, StringLiteral, NumberLiteral, Boolean, Null), the
`NewNumberLiteral` constructor built on `strconv.ParseInt`/`strconv.ParseFloat`,
the per-node `TokenLiteral` accessors and the per-node `String` display
methods.  Go `float64` values are embedded as an inductive `F64` whose finite
values are exact rationals, and the IEEE-754 round-to-nearest-even conversion
performed by Go is embedded as the computable function `roundF64`.
-/

/-- Modelled from the spec: the repository's `Token` type (its source file is
not among the provided sources) carries a lexical kind, the literal text and a
source position.  Only the `Literal` field is ever read by the code in
`ast.go`.  The Go field `Type` is renamed `Kind` because `Type` is reserved in
Lean. -/
structure Token where
  Kind : String
  Literal : String
  Line : Int
  Column : Int
deriving DecidableEq

/-- Embedding of Go `float64` values as produced by the code under scrutiny:
a finite double is represented by its exact rational value, plus the three
non-finite values.  Go's negative zero collapses to `finite 0`; the sign of
zero is never observable through the functions modelled here. -/
inductive F64 where
  | finite (q : ℚ)
  | inf
  | neginf
  | nan
deriving DecidableEq

/-- Fuel-driven floor of the base-2 logarithm on naturals: `natLog2F f n` is
the floor of `log2 n` whenever `1 ≤ n ≤ f`.  Written with explicit fuel so
that the kernel can evaluate it (the recursion is structural in the fuel). -/
def natLog2F : ℕ → ℕ → ℕ
  | 0, _ => 0
  | f + 1, n => if n ≤ 1 then 0 else natLog2F f (n / 2) + 1

/-- Floor of the base-2 logarithm of a positive rational, as an integer.
For `q ≥ 1` it is the floor of `log2` of the integer part; for `0 < q < 1` it
is obtained from the reciprocal. -/
def ratLog2 (q : ℚ) : ℤ :=
  if 1 ≤ q then (natLog2F ⌊q⌋.toNat ⌊q⌋.toNat : ℤ)
  else
    (fun k => if (2 : ℚ) ^ (-(k : ℤ)) ≤ q then -(k : ℤ) else -(k : ℤ) - 1)
      (natLog2F ⌊q⁻¹⌋.toNat ⌊q⁻¹⌋.toNat)

/-- Round a rational to the nearest integer, ties to even (the IEEE-754
default rounding that Go uses for `float64` conversions and parsing). -/
def rnde (x : ℚ) : ℤ :=
  if x - ⌊x⌋ < 1 / 2 then ⌊x⌋
  else if 1 / 2 < x - ⌊x⌋ then ⌊x⌋ + 1
  else if ⌊x⌋ % 2 = 0 then ⌊x⌋ else ⌊x⌋ + 1

/-- Exact value of rounding a rational to the nearest IEEE-754 binary64
(round to nearest, ties to even), covering normal and subnormal ranges.
Overflow is not handled here: callers (the `ParseFloat` model) reject
out-of-range values before rounding, and `int64` inputs never overflow. -/
def roundF64 (q : ℚ) : ℚ :=
  if q = 0 then 0
  else
    (if q < 0 then (-1 : ℚ) else 1) *
      (rnde (|q| * 2 ^ (-(max (ratLog2 |q| - 52) (-1074)))) : ℚ) *
        2 ^ (max (ratLog2 |q| - 52) (-1074))

/-- Embedding of Go `strconv.ParseInt(s, 10, 64)` as used by
`NewNumberLiteral`: `some i` when Go returns `(i, nil)`, `none` when Go
returns a non-nil error (syntax error or out of `int64` range; the caller
only distinguishes `err == nil`).  Accepts an optional single `+` or `-`
sign followed by one or more ASCII decimal digits; base 10 is fixed, so
Go rejects underscores, and the value must lie in `[-2^63, 2^63 - 1]`. -/
def ParseInt64 (s : String) : Option ℤ :=
  match s.data with
  | [] => none
  | c :: cs =>
    (fun (neg : Bool) (ds : List Char) =>
      if ds = [] then none
      else if ds.all (fun d => d.isDigit) then
        (fun (n : ℕ) =>
          if neg then
            if n ≤ 2 ^ 63 then some (-(n : ℤ)) else none
          else
            if n ≤ 2 ^ 63 - 1 then some (n : ℤ) else none)
          (ds.foldl (fun a d => a * 10 + (d.toNat - 48)) 0)
      else none)
      (c = '-') (if c = '-' ∨ c = '+' then cs else c :: cs)

/-- Case-insensitive character match as in Go strconv, where `lower(c)` is
`c | 0x20` on the byte value and the comparison target `t` is always a
lowercase ASCII letter; for such targets `lower(c) = t` holds exactly for
`c = t` and for the uppercase form `c = t - 32`. -/
def lowerEq (c t : Char) : Bool := c == t || c.toNat + 32 == t.toNat

/-- Full-length case-insensitive match of `l` against the lowercase word
`t`, as strconv's `commonPrefixLenIgnoreCase` combined with the full-length
check done by `ParseFloat`. -/
def matchIC : List Char → List Char → Bool
  | [], [] => true
  | c :: cs, t :: ts => lowerEq c t && matchIC cs ts
  | _, _ => false

/-- Go strconv's `special`: the whole string is an optionally signed
`inf`/`infinity`, or an unsigned `nan`, case-insensitively (a sign followed
by `nan` falls through to the infinity check and is rejected).  Only
full-string matches survive `ParseFloat`'s length check. -/
def specialGo (l : List Char) : Option F64 :=
  match l with
  | [] => none
  | c :: cs =>
    if c = '+' ∨ c = '-' then
      if matchIC cs ['i', 'n', 'f'] || matchIC cs ['i', 'n', 'f', 'i', 'n', 'i', 't', 'y'] then
        some (if c = '-' then F64.neginf else F64.inf)
      else none
    else if matchIC l ['i', 'n', 'f'] || matchIC l ['i', 'n', 'f', 'i', 'n', 'i', 't', 'y'] then
      some F64.inf
    else if matchIC l ['n', 'a', 'n'] then some F64.nan
    else none

/-- Mantissa digit test of Go's `readFloat`: ASCII decimal digits, plus the
hexadecimal letters when the base is 16. -/
def isDigitBase (base : ℕ) (c : Char) : Bool :=
  c.isDigit || (base == 16 && (('a' ≤ c && c ≤ 'f') || ('A' ≤ c && c ≤ 'F')))

/-- Numeric value of a (possibly hexadecimal) digit character. -/
def digitValGo (c : Char) : ℕ :=
  if c.isDigit then c.toNat - 48
  else if 'a' ≤ c && c ≤ 'f' then c.toNat - 87
  else c.toNat - 55

/-- Scanner state of `readFloat`'s mantissa loop: the digits accumulated so
far as an exact natural number (Go truncates long mantissas but recovers the
full value in its slow conversion path, so the exact value is the faithful
model), the digit count, the digit position of the decimal dot if one was
seen, and the `sawdigits`/`underscores` flags. -/
structure MantissaAcc where
  d : ℕ
  nd : ℕ
  dotPos : Option ℕ
  sawdigits : Bool
  underscores : Bool

/-- Mantissa loop of Go's `readFloat`: consumes digits, at most one dot, and
underscores (which are validated later by `underscoreOK`); stops at the
first character that extends none of these, returning the rest. -/
def scanMantissa (base : ℕ) : List Char → MantissaAcc → MantissaAcc × List Char
  | [], acc => (acc, [])
  | c :: cs, acc =>
    if c = '_' then
      scanMantissa base cs ⟨acc.d, acc.nd, acc.dotPos, acc.sawdigits, true⟩
    else if c = '.' then
      match acc.dotPos with
      | some _ => (acc, c :: cs)
      | none => scanMantissa base cs ⟨acc.d, acc.nd, some acc.nd, acc.sawdigits, acc.underscores⟩
    else if isDigitBase base c then
      scanMantissa base cs
        ⟨acc.d * base + digitValGo c, acc.nd + 1, acc.dotPos, true, acc.underscores⟩
    else (acc, c :: cs)

/-- Exponent digit loop of Go's `readFloat`: decimal digits and underscores;
Go saturates the accumulated exponent at 10000 (`if e < 10000`), which is
reproduced exactly. -/
def scanExpDigits : List Char → ℕ → Bool → ℕ × Bool × List Char
  | [], e, u => (e, u, [])
  | c :: cs, e, u =>
    if c = '_' then scanExpDigits cs e true
    else if c.isDigit then
      scanExpDigits cs (if e < 10000 then e * 10 + (c.toNat - 48) else e) u
    else (e, u, c :: cs)

/-- Exponent part of Go's `readFloat`, after the `e`/`p` marker: an optional
sign, then at least one decimal digit (otherwise the whole parse fails),
then further digits and underscores.  Returns the signed exponent, whether
an underscore was seen, and the unconsumed rest. -/
def readExp (l : List Char) : Option (ℤ × Bool × List Char) :=
  match l with
  | [] => none
  | c :: cs =>
    (fun (sgn : ℤ) (l1 : List Char) =>
      match l1 with
      | [] => none
      | d :: _ =>
        if d.isDigit then
          (fun (r : ℕ × Bool × List Char) => some (sgn * (r.1 : ℤ), r.2.1, r.2.2))
            (scanExpDigits l1 0 false)
        else none)
      (if c = '-' then (-1 : ℤ) else 1) (if c = '+' ∨ c = '-' then cs else c :: cs)

/-- Inner loop of Go strconv's `underscoreOK`: `saw` is the class of the
previous character, encoded as Go does with the characters `^` (start),
`0` (digit), `_` and `!` (anything else).  An underscore must be preceded
by a digit and must not be followed by a non-digit or the end. -/
def uOKrun (hex : Bool) : List Char → Char → Bool
  | [], saw => saw != '_'
  | c :: cs, saw =>
    if c.isDigit || (hex && (('a' ≤ c && c ≤ 'f') || ('A' ≤ c && c ≤ 'F'))) then
      uOKrun hex cs '0'
    else if c = '_' then
      if saw != '0' then false else uOKrun hex cs '_'
    else if saw == '_' then false
    else uOKrun hex cs '!'

/-- Go strconv's `underscoreOK` on the full literal: strips one sign, then a
`0x`/`0X` prefix (after which an underscore may directly follow), and checks
every underscore sits between digits. -/
def underscoreOKGo (l : List Char) : Bool :=
  (fun (l1 : List Char) =>
    match l1 with
    | '0' :: c :: t => if c = 'x' ∨ c = 'X' then uOKrun true t '0' else uOKrun false l1 '^'
    | _ => uOKrun false l1 '^')
    (match l with
     | c :: t => if c = '+' ∨ c = '-' then t else l
     | [] => l)

/-- Go's `readFloat` combined with `ParseFloat`'s full-consumption check,
returning the exact rational value of a syntactically well-formed decimal or
hexadecimal floating-point literal (sign, digits with at most one dot, for
decimals an optional `e`-exponent, for hexadecimals a mandatory `p`-exponent,
underscores validated by `underscoreOK`), and `none` on any syntax error. -/
def readFloatGo (l : List Char) : Option ℚ :=
  let sr : Bool × List Char :=
    match l with
    | '+' :: t => (false, t)
    | '-' :: t => (true, t)
    | t => (false, t)
  let hr : Bool × List Char :=
    match sr.2 with
    | '0' :: c :: t => if c = 'x' ∨ c = 'X' then (true, t) else (false, sr.2)
    | _ => (false, sr.2)
  let base : ℕ := if hr.1 then 16 else 10
  let mr := scanMantissa base hr.2 ⟨0, 0, none, false, false⟩
  if mr.1.sawdigits = false then none
  else
    let dp : ℤ := match mr.1.dotPos with | some p => (p : ℤ) | none => (mr.1.nd : ℤ)
    let expRes : Option (ℤ × Bool) :=
      match mr.2 with
      | [] => if hr.1 then none else some (0, false)
      | c :: cs =>
        if lowerEq c (if hr.1 then 'p' else 'e') then
          match readExp cs with
          | none => none
          | some (e, u2, rest) => if rest = [] then some (e, u2) else none
        else none
    match expRes with
    | none => none
    | some (e, u2) =>
      if (mr.1.underscores || u2) && !(underscoreOKGo l) then none
      else
        let mag : ℚ :=
          if hr.1 then (mr.1.d : ℚ) * (2 : ℚ) ^ (4 * (dp - (mr.1.nd : ℤ)) + e)
          else (mr.1.d : ℚ) * (10 : ℚ) ^ (dp - (mr.1.nd : ℤ) + e)
        some (if sr.1 then -mag else mag)

/-- Smallest magnitude at which IEEE-754 round-to-nearest-even overflows a
binary64 to infinity: half an ulp above the largest finite double,
`2^1024 - 2^970`.  At exactly this value the tie goes to the even mantissa,
which is infinite. -/
def f64MaxThreshold : ℚ := ((2 ^ 1024 - 2 ^ 970 : ℕ) : ℚ)

/-- Embedding of Go `strconv.ParseFloat(s, 64)` as used by
`NewNumberLiteral`: `some v` when Go returns `(v, nil)` and `none` when Go
returns a non-nil error — a syntax error, or the range error produced when
the exact value of the literal rounds to an infinity (the caller only
distinguishes `err == nil`, so the `±Inf, ErrRange` result is `none` here).
Values that underflow round to zero without error, as in Go. -/
def ParseFloat64 (s : String) : Option F64 :=
  match specialGo s.data with
  | some v => some v
  | none =>
    match readFloatGo s.data with
    | none => none
    | some r => if f64MaxThreshold ≤ |r| then none else some (F64.finite (roundF64 r))

example : ParseInt64 "42" = some 42 := by decide
example : ParseInt64 "-42" = some (-42) := by decide
example : ParseInt64 "+7" = some 7 := by decide
example : ParseInt64 "42.0" = none := by decide
example : ParseInt64 "" = none := by decide
example : ParseInt64 "9223372036854775807" = some 9223372036854775807 := by decide
example : ParseInt64 "9223372036854775808" = none := by decide
example : ParseInt64 "-9223372036854775808" = some (-9223372036854775808) := by decide
example : ParseInt64 "1e4" = none := by decide
example : natLog2F 42 42 = 5 := by decide
example : rnde (7 / 2) = 4 := by decide!
example : rnde (5 / 2) = 2 := by decide!
example : roundF64 42 = 42 := by decide!
example : roundF64 9223372036854775807 = 9223372036854775808 := by decide!
example : ParseFloat64 "42.0" = some (F64.finite 42) := by decide!
example : ParseFloat64 "42" = some (F64.finite 42) := by decide!
example : ParseFloat64 ".5" = some (F64.finite (1 / 2)) := by decide!
example : ParseFloat64 "-1.5e2" = some (F64.finite (-150)) := by decide!
example : ParseFloat64 "1e400" = none := by decide!
example : ParseFloat64 "1e" = none := by decide!
example : ParseFloat64 "" = none := by decide!
example : ParseFloat64 "abc" = none := by decide!
example : ParseFloat64 "inf" = some F64.inf := by decide!
example : ParseFloat64 "-Infinity" = some F64.neginf := by decide!
example : ParseFloat64 "NaN" = some F64.nan := by decide!
example : ParseFloat64 "+nan" = none := by decide!
example : ParseFloat64 "0x1p3" = some (F64.finite 8) := by decide!
example : ParseFloat64 "0x1.8p1" = some (F64.finite 3) := by decide!
example : ParseFloat64 "0x1p" = none := by decide!
example : ParseFloat64 "0x1" = none := by decide!
example : ParseFloat64 "1_000.5" = some (F64.finite (2001 / 2)) := by decide!
example : ParseFloat64 "1__0" = none := by decide!
example : ParseFloat64 "_1" = none := by decide!
example : ParseFloat64 "1_" = none := by decide!
example : ParseFloat64 "1.2.3" = none := by decide!
example : ParseFloat64 "1." = some (F64.finite 1) := by decide!
example : ParseFloat64 "1e-400" = some (F64.finite 0) := by decide!

/-- Embedding of the Go struct `StringLiteral` of `ast.go`. -/
structure StringLiteral where
  Token : Token
  Value : String

/-- Embedding of the Go struct `NumberLiteral` of `ast.go`, fields in source
order.  `Float` is the embedded `float64` field; `Int` is the `int64` field,
whose range `[-2^63, 2^63-1]` is guaranteed by `ParseInt64` whenever the
field is set to anything but zero. -/
structure NumberLiteral where
  Token : Token
  Value : String
  Float : F64
  Int : ℤ
  IsInt : Bool
  IsValid : Bool

/-- Embedding of the Go struct `Boolean` of `ast.go`. -/
structure Boolean where
  Token : Token
  Value : Bool

/-- Embedding of the Go struct `Null` of `ast.go`. -/
structure Null where
  Token : Token

/-- Embedding of Go's `float64(i)` conversion applied to an `int64` value:
IEEE-754 round to nearest, ties to even.  No `int64` magnitude can overflow
a `float64`, so the result is always finite. -/
def float64OfInt (i : ℤ) : F64 := F64.finite (roundF64 (i : ℚ))

/-- Embedding of `NewNumberLiteral` (`ast.go` lines 97-127): try
`strconv.ParseInt(lit, 10, 64)` first and on success record the integer and
its `float64` conversion with both flags true; otherwise try
`strconv.ParseFloat(lit, 64)` and on success record the float with
`IsInt = false`, `IsValid = true`; otherwise leave the numeric fields at
their zero values and record `IsValid = false`. -/
def NewNumberLiteral (token : Token) : NumberLiteral :=
  match ParseInt64 token.Literal with
  | some i => ⟨token, token.Literal, float64OfInt i, i, true, true⟩
  | none =>
    match ParseFloat64 token.Literal with
    | some f => ⟨token, token.Literal, f, 0, false, true⟩
    | none => ⟨token, token.Literal, F64.finite 0, 0, false, false⟩

/-- Decimal digit character of a value below ten. -/
def digitChar (d : ℕ) : Char := Char.ofNat (48 + d)

/-- Fuel-driven decimal digit list of a natural number (most significant
first); the fuel `n + 1` always suffices. -/
def natDecAux : ℕ → ℕ → List Char
  | 0, _ => []
  | f + 1, n => if n < 10 then [digitChar n] else natDecAux f (n / 10) ++ [digitChar (n % 10)]

/-- Decimal rendering of a natural number. -/
def natDec (n : ℕ) : String := ⟨natDecAux (n + 1) n⟩

/-- Embedding of Go's `fmt.Sprintf` with verb `d` on an `int64` value. -/
def formatIntD (i : ℤ) : String := if i < 0 then "-" ++ natDec i.natAbs else natDec i.natAbs

/-- Left-pad a decimal string with zeros to six digits. -/
def padZeros6 (s : String) : String := String.mk (List.replicate (6 - s.length) '0') ++ s

/-- Embedding of Go's `fmt.Sprintf` with verb `f` (default precision 6) on a
`float64`: the exact binary value is rounded to six decimal places, ties to
even, and rendered with a sign, an integer part and exactly six fractional
digits; the non-finite values print as Go prints them.  The embedded `F64`
does not carry a negative zero, so `finite 0` prints without a sign. -/
def formatFloatF6 : F64 → String
  | F64.nan => "NaN"
  | F64.inf => "+Inf"
  | F64.neginf => "-Inf"
  | F64.finite q =>
    (fun (m : ℕ) =>
      (if q < 0 then "-" else "") ++ natDec (m / 1000000) ++ "." ++ padZeros6 (natDec (m % 1000000)))
      (rnde (|q| * 1000000)).toNat

/-- Embedding of the Go method `NumberLiteral.TokenLiteral` (`ast.go`). -/
def NumberLiteral.TokenLiteral (n : NumberLiteral) : String := n.Token.Literal

/-- Embedding of the Go method `NumberLiteral.String` (`ast.go` lines
132-139): integers print with `%d` on the `Int` field, everything else with
`%f` on the `Float` field. -/
def NumberLiteral.display (n : NumberLiteral) : String :=
  if n.IsInt then formatIntD n.Int else formatFloatF6 n.Float

/-- Embedding of the Go method `NumberLiteral.IsValidNumber` (`ast.go`). -/
def NumberLiteral.IsValidNumber (n : NumberLiteral) : Bool := n.IsValid

/-- Embedding of the Go method `StringLiteral.TokenLiteral` (`ast.go`). -/
def StringLiteral.TokenLiteral (s : StringLiteral) : String := s.Token.Literal

/-- Embedding of the Go method `StringLiteral.String` (`ast.go`). -/
def StringLiteral.display (s : StringLiteral) : String := s.Value

/-- Embedding of the Go method `Boolean.TokenLiteral` (`ast.go`). -/
def Boolean.TokenLiteral (b : Boolean) : String := b.Token.Literal

/-- Embedding of the Go method `Boolean.String` (`ast.go` line 161): it
returns the token literal and never reads the `Value` field. -/
def Boolean.display (b : Boolean) : String := b.Token.Literal

/-- Embedding of the Go method `Null.TokenLiteral` (`ast.go`). -/
def Null.TokenLiteral (n : Null) : String := n.Token.Literal

/-- Embedding of the Go method `Null.String` (`ast.go`). -/
def Null.display (_ : Null) : String := "null"

/-- Embedding of the Go interface `Value` of `ast.go` as a closed sum of the
five node kinds.  `Object` and `Array` contain child values, so they appear
as recursive constructors rather than separate structures.  Go's
`Object.Pairs` is a `map[string]Value`; it is embedded as the association
list of its entries IN THE ITERATION ORDER THE MAP YIELDS, which Go does not
guarantee to be stable: two `Value.object` nodes whose pair lists are
permutations of one another represent the same Go map observed under two
iteration orders. -/
inductive Value where
  | object (token : Token) (pairs : List (String × Value))
  | array (token : Token) (elements : List Value)
  | str (s : StringLiteral)
  | num (n : NumberLiteral)
  | boolean (b : Boolean)
  | nullv (n : Null)

/-- Token recorded in a value node (the `Token` field of each Go struct). -/
def Value.token : Value → Token
  | .object tok _ => tok
  | .array tok _ => tok
  | .str s => s.Token
  | .num n => n.Token
  | .boolean b => b.Token
  | .nullv n => n.Token

/-- Dynamic dispatch of the Go `TokenLiteral()` methods over the five node
kinds: each method returns the `Literal` field of the node's token
(`ast.go` lines 17-18, 55-56, 72-73, 129-130, 157-158, 172-173). -/
def Value.TokenLiteral : Value → String
  | .object tok _ => tok.Literal
  | .array tok _ => tok.Literal
  | .str s => s.TokenLiteral
  | .num n => n.TokenLiteral
  | .boolean b => b.TokenLiteral
  | .nullv n => n.TokenLiteral

mutual

/-- Dynamic dispatch of the Go `String()` display methods (`ast.go`):
`Object.String` writes a brace-delimited, comma-separated list of
`key: value` entries in the map's iteration order; `Array.String` returns
the fixed placeholder (source line 59, commented "Simplified for now");
the scalars delegate to their structs' methods. -/
def Value.displayString : Value → String
  | .object _ pairs => "\x7b" ++ Value.pairsDisplay pairs ++ "\x7d"
  | .array _ _ => "[]"
  | .str s => s.display
  | .num n => n.display
  | .boolean b => b.display
  | .nullv n => n.display

/-- The pair list of `Object.String`: `key: value` entries joined by a
comma-space separator, exactly as the Go loop writes them (separator before
every entry except the first). -/
def Value.pairsDisplay : List (String × Value) → String
  | [] => ""
  | kv :: rest =>
    kv.1 ++ ": " ++ kv.2.displayString ++
      (match rest with | [] => "" | _ :: _ => ", ") ++ Value.pairsDisplay rest

end

example : natDec 0 = "0" := by decide
example : natDec 1234 = "1234" := by decide
example : formatIntD (-42) = "-42" := by decide
example : formatFloatF6 (F64.finite 0) = "0.000000" := by decide!
example : formatFloatF6 (F64.finite (1 / 2)) = "0.500000" := by decide!
example : formatFloatF6 (F64.finite (-150)) = "-150.000000" := by decide!
example : (NewNumberLiteral ⟨"NUMBER", "42", 1, 1⟩).Int = 42 := by decide
example : (NewNumberLiteral ⟨"NUMBER", "42", 1, 1⟩).display = "42" := by decide!
example : (NewNumberLiteral ⟨"NUMBER", "abc", 1, 1⟩).display = "0.000000" := by decide!

/-- Correctness of the fueled base-2 logarithm: with enough fuel it brackets
its argument between consecutive powers of two. -/
lemma natLog2F_spec : ∀ f n : ℕ, 1 ≤ n → n ≤ f →
    2 ^ natLog2F f n ≤ n ∧ n < 2 ^ (natLog2F f n + 1) := by
  intro f
  induction f with
  | zero => intro n h1 h2; omega
  | succ f ih =>
    intro n h1 h2
    simp only [natLog2F]
    by_cases hn : n ≤ 1
    · rw [if_pos hn]
      have : n = 1 := by omega
      simp [this]
    · rw [if_neg hn]
      obtain ⟨ha, hb⟩ := ih (n / 2) (by omega) (by omega)
      have e1 : (2 : ℕ) ^ (natLog2F f (n / 2) + 1) = 2 * 2 ^ natLog2F f (n / 2) := by
        rw [pow_succ]; ring
      have e2 : (2 : ℕ) ^ (natLog2F f (n / 2) + 1 + 1) = 2 * 2 ^ (natLog2F f (n / 2) + 1) := by
        rw [pow_succ]; ring
      omega

/-- On a positive natural number, `ratLog2` is the fueled natural log. -/
lemma ratLog2_natCast (n : ℕ) (h : 1 ≤ n) : ratLog2 (n : ℚ) = (natLog2F n n : ℤ) := by
  have h1 : (1 : ℚ) ≤ (n : ℚ) := by exact_mod_cast h
  rw [ratLog2, if_pos h1, Int.floor_natCast, Int.toNat_natCast]

/-- Rounding an integer to the nearest integer is the identity. -/
lemma rnde_intCast (k : ℤ) : rnde (k : ℚ) = k := by
  rw [rnde, Int.floor_intCast]
  norm_num

/-- IEEE-754 binary64 rounding is exact on natural numbers of at most 53
bits (they are representable). -/
lemma roundF64_nat (n : ℕ) (h1 : 1 ≤ n) (h2 : n ≤ 2 ^ 53) :
    roundF64 (n : ℚ) = (n : ℚ) := by
  have hqpos : (0 : ℚ) < (n : ℚ) := by exact_mod_cast h1
  have hq0 : ((n : ℚ)) ≠ 0 := ne_of_gt hqpos
  have hql : ¬ ((n : ℚ) < 0) := not_lt.mpr (le_of_lt hqpos)
  have habs : |(n : ℚ)| = (n : ℚ) := abs_of_nonneg (le_of_lt hqpos)
  have hlog := ratLog2_natCast n h1
  obtain ⟨hl, hu⟩ := natLog2F_spec n n h1 le_rfl
  have hL53 : natLog2F n n ≤ 53 := by
    by_contra hc
    push_neg at hc
    have hgt : (2 : ℕ) ^ 54 ≤ 2 ^ natLog2F n n := Nat.pow_le_pow_right (by norm_num) hc
    have : (2 : ℕ) ^ 54 ≤ 2 ^ 53 := le_trans hgt (le_trans hl h2)
    norm_num at this
  simp only [roundF64, if_neg hq0, if_neg hql, habs, hlog]
  rcases Nat.lt_or_ge (natLog2F n n) 53 with hL | hL
  · have hL52 : natLog2F n n ≤ 52 := by omega
    have ht : max ((natLog2F n n : ℤ) - 52) (-1074) = (natLog2F n n : ℤ) - 52 := by
      apply max_eq_left; omega
    rw [ht]
    have hexp : -((natLog2F n n : ℤ) - 52) = ((52 - natLog2F n n : ℕ) : ℤ) := by omega
    have key : (n : ℚ) * (2 : ℚ) ^ (-((natLog2F n n : ℤ) - 52)) =
        (((n * 2 ^ (52 - natLog2F n n) : ℕ) : ℤ) : ℚ) := by
      rw [hexp, zpow_natCast]
      push_cast
      ring
    rw [key, rnde_intCast]
    have h2t : ((natLog2F n n : ℤ) - 52) = -(((52 - natLog2F n n : ℕ) : ℤ)) := by omega
    rw [h2t, zpow_neg, zpow_natCast]
    push_cast
    have hne : ((2 : ℚ)) ^ (52 - natLog2F n n) ≠ 0 := by positivity
    field_simp
  · have hL53e : natLog2F n n = 53 := by omega
    have hn : n = 2 ^ 53 := by
      have hge : 2 ^ 53 ≤ n := by
        calc (2 : ℕ) ^ 53 = 2 ^ natLog2F n n := by rw [hL53e]
          _ ≤ n := hl
      omega
    have ht : max ((natLog2F n n : ℤ) - 52) (-1074) = 1 := by
      rw [hL53e]; norm_num
    rw [ht]
    have key : (n : ℚ) * (2 : ℚ) ^ (-(1 : ℤ)) = (((2 ^ 52 : ℕ) : ℤ) : ℚ) := by
      rw [hn]
      push_cast
      rw [zpow_neg, zpow_one]
      norm_num
    rw [key, rnde_intCast]
    rw [hn]
    push_cast
    rw [zpow_one]
    ring

/-- `roundF64` commutes with negation: the rounding is symmetric. -/
lemma roundF64_neg (q : ℚ) : roundF64 (-q) = -roundF64 q := by
  rcases lt_trichotomy q 0 with h | h | h
  · have h0 : q ≠ 0 := ne_of_lt h
    have h0n : -q ≠ 0 := neg_ne_zero.mpr h0
    rw [roundF64, roundF64, if_neg h0n, if_neg h0, abs_neg]
    rw [if_neg (not_lt.mpr (le_of_lt (neg_pos.mpr h))), if_pos h]
    ring
  · simp [h, roundF64]
  · have h0 : q ≠ 0 := ne_of_gt h
    have h0n : -q ≠ 0 := neg_ne_zero.mpr h0
    rw [roundF64, roundF64, if_neg h0n, if_neg h0, abs_neg]
    rw [if_pos (neg_lt_zero.mpr h), if_neg (not_lt.mpr (le_of_lt h))]
    ring

/-- IEEE-754 binary64 rounding is exact on every integer of magnitude at
most `2^53`; in particular Go's `float64(i)` conversion is lossless there. -/
lemma roundF64_int_exact (i : ℤ) (h : i.natAbs ≤ 2 ^ 53) : roundF64 (i : ℚ) = (i : ℚ) := by
  rcases eq_or_ne i 0 with rfl | h0
  · simp [roundF64]
  · have h1 : 1 ≤ i.natAbs := by omega
    have hnat := roundF64_nat i.natAbs h1 h
    rcases Int.natAbs_eq i with he | he
    · rw [he, Int.cast_natCast, hnat]
    · rw [he, Int.cast_neg, Int.cast_natCast, roundF64_neg, hnat]

/-- A literal accepted by `ParseInt64` consists of an optional sign and
decimal digits only; in particular it contains no dot and no exponent
marker. -/
lemma parseInt64_no_dot_exp (s : String) (i : ℤ) (h : ParseInt64 s = some i) :
    s.data.all (fun c => !(c == '.' || c == 'e' || c == 'E')) = true := by
  have hdig : ∀ d : Char, d.isDigit = true → (!(d == '.' || d == 'e' || d == 'E')) = true := by
    intro d hd
    by_cases h1 : d = '.'
    · subst h1; exact absurd hd (by decide)
    · by_cases h2 : d = 'e'
      · subst h2; exact absurd hd (by decide)
      · by_cases h3 : d = 'E'
        · subst h3; exact absurd hd (by decide)
        · simp [h1, h2, h3]
  rw [ParseInt64] at h
  revert h
  cases s.data with
  | nil => intro h; exact absurd h (by simp)
  | cons c cs =>
    intro h
    simp only at h
    by_cases hsign : c = '-' ∨ c = '+'
    · rw [if_pos hsign] at h
      by_cases hnil : cs = []
      · rw [if_pos hnil] at h; exact absurd h (by simp)
      · rw [if_neg hnil] at h
        by_cases hall : cs.all (fun d => d.isDigit)
        · have hcok : (!(c == '.' || c == 'e' || c == 'E')) = true := by
            rcases hsign with hs | hs <;> subst hs <;> decide
          rw [List.all_eq_true] at hall
          rw [List.all_eq_true]
          intro x hx
          rcases List.mem_cons.mp hx with hx | hx
          · subst hx; exact hcok
          · exact hdig x (hall x hx)
        · rw [if_neg hall] at h; exact absurd h (by simp)
    · rw [if_neg hsign] at h
      rw [if_neg (by simp : ¬((c :: cs : List Char) = []))] at h
      by_cases hall : (c :: cs).all (fun d => d.isDigit)
      · rw [List.all_eq_true] at hall
        rw [List.all_eq_true]
        intro x hx
        exact hdig x (hall x hx)
      · rw [if_neg hall] at h; exact absurd h (by simp)

/-- C1 (corrected, counterexample): the literal `"9223372036854775807"`
parses as a strict base-10 signed 64-bit integer (it is the largest one),
yet the `Float` field of the `NumberLiteral` built from it is NOT the exact
numeric value of that integer: Go's `float64(i)` conversion rounds to the
nearest representable double, `9223372036854775808`. -/
theorem c1_intPath_counterexample :
    ParseInt64 "9223372036854775807" = some 9223372036854775807 ∧
    (NewNumberLiteral ⟨"NUMBER", "9223372036854775807", 1, 1⟩).IsInt = true ∧
    (NewNumberLiteral ⟨"NUMBER", "9223372036854775807", 1, 1⟩).Int = 9223372036854775807 ∧
    (NewNumberLiteral ⟨"NUMBER", "9223372036854775807", 1, 1⟩).Float ≠
      F64.finite ((9223372036854775807 : ℚ)) ∧
    (NewNumberLiteral ⟨"NUMBER", "9223372036854775807", 1, 1⟩).Float =
      F64.finite ((9223372036854775808 : ℚ)) := by
  decide!

/-- C1 (amended): for every numeric token literal that parses as a strict
base-10 signed 64-bit integer `i`, `NewNumberLiteral` sets `IsInt = true`
and `IsValid = true`, stores `i` in the `Int` field, and sets the `Float`
field to `float64(i)`, the IEEE-754 round-to-nearest-even conversion of
`i`; that conversion is the exact numeric value whenever `|i| ≤ 2^53`, but
not for every `int64` (see the counterexample). -/
theorem c1_intPath_amended (tok : Token) (i : ℤ) (h : ParseInt64 tok.Literal = some i) :
    (NewNumberLiteral tok).IsInt = true ∧ (NewNumberLiteral tok).IsValid = true ∧
    (NewNumberLiteral tok).Int = i ∧ (NewNumberLiteral tok).Float = float64OfInt i ∧
    (|i| ≤ 2 ^ 53 → (NewNumberLiteral tok).Float = F64.finite ((i : ℚ))) := by
  have hN : NewNumberLiteral tok = ⟨tok, tok.Literal, float64OfInt i, i, true, true⟩ := by
    rw [NewNumberLiteral, h]
  rw [hN]
  refine ⟨rfl, rfl, rfl, rfl, ?_⟩
  intro hle
  have habs : i.natAbs ≤ 2 ^ 53 := by
    rw [Int.abs_eq_natAbs] at hle
    exact_mod_cast hle
  simp only [float64OfInt, roundF64_int_exact i habs]

/-- C1 witness: the literal `"42"` takes the integer path and its `Float`
field is exactly `42`. -/
theorem c1_intPath_witness :
    (NewNumberLiteral ⟨"NUMBER", "42", 1, 1⟩).IsInt = true ∧
    (NewNumberLiteral ⟨"NUMBER", "42", 1, 1⟩).IsValid = true ∧
    (NewNumberLiteral ⟨"NUMBER", "42", 1, 1⟩).Int = 42 ∧
    (NewNumberLiteral ⟨"NUMBER", "42", 1, 1⟩).Float = F64.finite ((42 : ℚ)) := by
  obtain ⟨h1, h2, h3, _, h5⟩ :=
    c1_intPath_amended ⟨"NUMBER", "42", 1, 1⟩ 42 (by decide)
  exact ⟨h1, h2, h3, h5 (by decide)⟩

/-- C2: for every token literal on which the integer parse fails but the
float parse succeeds with value `f`, `NewNumberLiteral` sets
`IsInt = false`, `IsValid = true` and stores `f` in the `Float` field. -/
theorem c2_floatPath (tok : Token) (f : F64)
    (h1 : ParseInt64 tok.Literal = none) (h2 : ParseFloat64 tok.Literal = some f) :
    (NewNumberLiteral tok).IsInt = false ∧ (NewNumberLiteral tok).IsValid = true ∧
    (NewNumberLiteral tok).Float = f := by
  have hN : NewNumberLiteral tok = ⟨tok, tok.Literal, f, 0, false, true⟩ := by
    rw [NewNumberLiteral, h1, h2]
  rw [hN]
  exact ⟨rfl, rfl, rfl⟩

/-- C2 witness: the fractional literal `"42.0"` fails the integer parse,
parses as the float `42`, and yields `IsInt = false`, `IsValid = true`,
`Float = 42`. -/
theorem c2_floatPath_witness :
    (NewNumberLiteral ⟨"NUMBER", "42.0", 1, 1⟩).IsInt = false ∧
    (NewNumberLiteral ⟨"NUMBER", "42.0", 1, 1⟩).IsValid = true ∧
    (NewNumberLiteral ⟨"NUMBER", "42.0", 1, 1⟩).Float = F64.finite ((42 : ℚ)) :=
  c2_floatPath ⟨"NUMBER", "42.0", 1, 1⟩ (F64.finite ((42 : ℚ))) (by decide) (by decide!)

/-- C3: for every token literal on which both the integer parse and the
float parse fail, `NewNumberLiteral` returns a `NumberLiteral` with
`IsValid = false` and both numeric fields at their zero values. -/
theorem c3_invalidPath (tok : Token)
    (h1 : ParseInt64 tok.Literal = none) (h2 : ParseFloat64 tok.Literal = none) :
    (NewNumberLiteral tok).IsValid = false ∧ (NewNumberLiteral tok).Int = 0 ∧
    (NewNumberLiteral tok).Float = F64.finite 0 := by
  have hN : NewNumberLiteral tok = ⟨tok, tok.Literal, F64.finite 0, 0, false, false⟩ := by
    rw [NewNumberLiteral, h1, h2]
  rw [hN]
  exact ⟨rfl, rfl, rfl⟩

/-- C3 witness: the literal `"1e"` (an exponent marker with no digits)
fails both parses and yields an invalid zero-valued `NumberLiteral`. -/
theorem c3_invalidPath_witness :
    (NewNumberLiteral ⟨"NUMBER", "1e", 1, 1⟩).IsValid = false ∧
    (NewNumberLiteral ⟨"NUMBER", "1e", 1, 1⟩).Int = 0 ∧
    (NewNumberLiteral ⟨"NUMBER", "1e", 1, 1⟩).Float = F64.finite 0 :=
  c3_invalidPath ⟨"NUMBER", "1e", 1, 1⟩ (by decide) (by decide!)

/-- C4: the `IsInt` flag of a `NumberLiteral` produced by
`NewNumberLiteral` is true only if the strict base-10 signed 64-bit integer
parse succeeded, and in that case the literal contains no dot and no
exponent marker; contrapositively, every literal containing a fractional
part or an exponent yields `IsInt = false`. -/
theorem c4_isInt_invariant (tok : Token) (h : (NewNumberLiteral tok).IsInt = true) :
    (ParseInt64 tok.Literal).isSome = true ∧
    tok.Literal.data.all (fun c => !(c == '.' || c == 'e' || c == 'E')) = true := by
  cases hp : ParseInt64 tok.Literal with
  | none =>
    exfalso
    cases hq : ParseFloat64 tok.Literal <;>
      simp [NewNumberLiteral, hp, hq] at h
  | some i =>
    refine ⟨by simp [hp], parseInt64_no_dot_exp tok.Literal i hp⟩

/-- C4 witness: `"42"` yields `IsInt = true`, the integer parse indeed
succeeds on it, and it contains no dot or exponent marker. -/
theorem c4_isInt_invariant_witness :
    (ParseInt64 (Token.Literal ⟨"NUMBER", "42", 2, 5⟩)).isSome = true ∧
    (Token.Literal ⟨"NUMBER", "42", 2, 5⟩).data.all
      (fun c => !(c == '.' || c == 'e' || c == 'E')) = true :=
  c4_isInt_invariant ⟨"NUMBER", "42", 2, 5⟩ (by decide)

/-- C5: on the overflowing literal `"1e400"` the integer parse fails and
the float parse returns a range error, so `NewNumberLiteral` yields
`IsValid = false` (the first arm of the claim's disjunction) and in
particular never a valid integer. -/
theorem c5_overflow_1e400 :
    ((NewNumberLiteral ⟨"NUMBER", "1e400", 1, 1⟩).IsValid = false ∨
      ((NewNumberLiteral ⟨"NUMBER", "1e400", 1, 1⟩).IsValid = true ∧
        (NewNumberLiteral ⟨"NUMBER", "1e400", 1, 1⟩).IsInt = false)) ∧
    ¬ ((NewNumberLiteral ⟨"NUMBER", "1e400", 1, 1⟩).IsValid = true ∧
        (NewNumberLiteral ⟨"NUMBER", "1e400", 1, 1⟩).IsInt = true) := by
  decide!

/-- C6: for every `Array` value, whatever its token and however many
elements it contains, the display-string accessor returns the fixed
placeholder with no element detail. -/
theorem c6_array_display (tok : Token) (elems : List Value) :
    Value.displayString (Value.array tok elems) = "[]" := by
  simp [Value.displayString]

/-- C7: `Object.String` lists the pairs in the iteration order the
underlying map yields, and that order is observable: here are two objects
over the SAME two-pair map (their pair lists are permutations of one
another, which is how two iteration orders of one Go map are embedded)
whose display strings differ.  Since Go does not guarantee a stable map
iteration order, two invocations of `String()` on one such object may
return these two different outputs. -/
theorem c7_object_display_order :
    List.Perm
      [("a", Value.nullv ⟨⟨"NULL", "null", 1, 1⟩⟩), ("b", Value.nullv ⟨⟨"NULL", "null", 1, 1⟩⟩)]
      [("b", Value.nullv ⟨⟨"NULL", "null", 1, 1⟩⟩), ("a", Value.nullv ⟨⟨"NULL", "null", 1, 1⟩⟩)] ∧
    Value.displayString (Value.object ⟨"LBRACE", "\x7b", 1, 1⟩
        [("a", Value.nullv ⟨⟨"NULL", "null", 1, 1⟩⟩), ("b", Value.nullv ⟨⟨"NULL", "null", 1, 1⟩⟩)]) ≠
      Value.displayString (Value.object ⟨"LBRACE", "\x7b", 1, 1⟩
        [("b", Value.nullv ⟨⟨"NULL", "null", 1, 1⟩⟩), ("a", Value.nullv ⟨⟨"NULL", "null", 1, 1⟩⟩)]) := by
  constructor
  · exact List.Perm.swap _ _ _
  · simp only [Value.displayString, Value.pairsDisplay, Null.display]
    decide

/-- C8: for every value node of each of the five node kinds, the
literal-token accessor `TokenLiteral()` returns exactly the `Literal` field
of the token recorded in the node. -/
theorem c8_tokenLiteral (v : Value) : v.TokenLiteral = v.token.Literal := by
  cases v <;> rfl

/-- C9: the display-string accessor of a `Boolean` node returns the node's
token literal and is independent of the `Value` field: two `Boolean` nodes
with equal tokens but different `Value` fields display identically. -/
theorem c9_boolean_display (tok : Token) (b1 b2 : Bool) :
    Value.displayString (Value.boolean ⟨tok, b1⟩) = tok.Literal ∧
    Value.displayString (Value.boolean ⟨tok, b1⟩) =
      Value.displayString (Value.boolean ⟨tok, b2⟩) := by
  constructor <;> simp [Value.displayString, Boolean.display]

/-- C10: a `NumberLiteral` built from a literal that parses as neither
integer nor float (so `IsValid = false`) displays as the fixed-precision
float rendering of zero, `"0.000000"`, and never as the original literal
text (the original text cannot be `"0.000000"`, which parses as a float). -/
theorem c10_invalid_display (tok : Token)
    (h1 : ParseInt64 tok.Literal = none) (h2 : ParseFloat64 tok.Literal = none) :
    (NewNumberLiteral tok).display = "0.000000" ∧
    (NewNumberLiteral tok).display ≠ tok.Literal := by
  have hd : (NewNumberLiteral tok).display = "0.000000" := by
    have hN : NewNumberLiteral tok = ⟨tok, tok.Literal, F64.finite 0, 0, false, false⟩ := by
      rw [NewNumberLiteral, h1, h2]
    rw [hN]
    show formatFloatF6 (F64.finite 0) = "0.000000"
    decide!
  refine ⟨hd, ?_⟩
  intro hc
  rw [hd] at hc
  rw [← hc] at h2
  have hsome : ParseFloat64 "0.000000" = some (F64.finite 0) := by decide!
  rw [hsome] at h2
  exact Option.noConfusion h2

/-- C10 witness: the literal `"abc"` fails both parses and displays as
`"0.000000"`, not as `"abc"`. -/
theorem c10_invalid_display_witness :
    (NewNumberLiteral ⟨"NUMBER", "abc", 1, 1⟩).display = "0.000000" ∧
    (NewNumberLiteral ⟨"NUMBER", "abc", 1, 1⟩).display ≠
      Token.Literal ⟨"NUMBER", "abc", 1, 1⟩ :=
  c10_invalid_display ⟨"NUMBER", "abc", 1, 1⟩ (by decide) (by decide!)
